import Mathlib

/-!
Verification of the real-time price pipeline (ingestion, aggregation,
fanout) of the `kalpi-capital` repository.

The Python sources are shallowly embedded as Lean definitions:

* `RealtimePrices.Db` models `src/realtime_prices/database.py`
  (`PriceDatabase.upsert_price` acting on the per-key `prices` row);
* `RealtimePrices.TokenDb` models `src/database/token_db.py`;
* `RealtimePrices.Streamer` models `src/realtime_prices/streamer.py`
  (`AngelPriceStreamer._handle_market_data`, `_handle_reconnection`,
  `_broadcast_update`);
* `RealtimePrices.Api` models `src/realtime_prices/api.py`
  (`WebSocketManager` with `broadcast`, `subscribe_symbol`,
  `unsubscribe_symbol`, `disconnect`, `push_latest_prices`);
* `RealtimePrices.FloatModel` models the numeric representations involved
  in the read paths of `PriceDatabase` (DECIMAL(12,2) columns converted
  with Python `float(...)`).

Machine floats never appear: prices are `ℚ`, volumes are `ℤ`, and the
dynamically typed Python field values of raw feed events are embedded as
the inductive `PyVal`, with Python exceptions modelled in `Except`.
-/

namespace RealtimePrices

/-! ### Embedding of dynamically typed Python values -/

/-- A Python value as it occurs in a raw feed `data` dict: `None`, a
number (`int`/`float` merged into `ℚ`), or a string. -/
inductive PyVal where
  | none
  | num (q : ℚ)
  | str (s : String)
  deriving Repr, DecidableEq

/-- The Python exceptions the embedded code can raise. -/
inductive PyErr where
  /-- `AttributeError`: calling `.isdigit()` on a non-string value. -/
  | attributeError
  /-- `TypeError`: e.g. comparing a non-number with `0`. -/
  | typeError
  /-- `RuntimeError`: `asyncio.create_task` with no running event loop. -/
  | runtimeError
  deriving Repr, DecidableEq

/-- Python truthiness of an embedded value. -/
def pyTruthy : PyVal → Bool
  | .none => false
  | .num q => decide (q ≠ 0)
  | .str s => decide (s ≠ "")

/-- Python `a or b`: `a` when truthy, otherwise `b`. -/
def pyOr (a b : PyVal) : PyVal := if pyTruthy a then a else b

/-- Python `str(v)` as used in f-strings. -/
def pyStr : PyVal → String
  | .none => "None"
  | .num q => toString q
  | .str s => s

/-- Splitting a character list at every occurrence of `sep`
(Python `str.split(sep)`: adjacent separators yield empty parts). -/
def splitChars (sep : Char) : List Char → List Char → List (List Char)
  | [], acc => [acc.reverse]
  | ch :: rest, acc =>
      if ch = sep then acc.reverse :: splitChars sep rest []
      else splitChars sep rest (ch :: acc)

/-- Python `s.split(sep)` for a single-character separator. -/
def pySplit (s : String) (sep : Char) : List String :=
  (splitChars sep s.data []).map (fun l => ⟨l⟩)

/-- Python `v.isdigit()`: defined on strings only (`""` is not a digit
string); any other receiver raises `AttributeError`. -/
def pyIsDigit : PyVal → Except PyErr Bool
  | .str s => .ok (!s.data.isEmpty && s.data.all (·.isDigit))
  | _ => .error .attributeError

/-- `data.get(key)` on a dict embedded as an association list: `None`
when the key is absent. -/
def dget (data : List (String × PyVal)) (k : String) : PyVal :=
  match data.lookup k with
  | some v => v
  | Option.none => .none

/-- Python `dict[key] = value`: replace the entry when the key is
present (dicts are keyed uniquely), append it otherwise (dicts keep
insertion order). -/
def setAssoc {κ α : Type} [BEq κ] (m : List (κ × α)) (k : κ) (v : α) :
    List (κ × α) :=
  if m.any (fun p => p.1 == k) then
    m.map (fun p => if p.1 == k then (k, v) else p)
  else m ++ [(k, v)]

/-! ### The aggregate store: `PriceDatabase.upsert_price` -/

namespace Db

/-- The arguments `upsert_price` reads out of the `price_data` dict.
A field is `none` when its key is absent from the dict (Python
`dict.get(key, default)` falls back only on an absent key, not on a
present zero). -/
structure PriceData where
  ltp : Option ℚ
  volume : Option ℤ
  oi : Option ℤ
  openPx : Option ℚ
  highPx : Option ℚ
  lowPx : Option ℚ
  deriving Repr, DecidableEq

/-- One row of the `prices` table for a fixed `(date, symbol, exchange)` key. -/
structure PriceRow where
  openPx : ℚ
  highPx : ℚ
  lowPx : ℚ
  closePx : ℚ
  volume : ℤ
  oi : ℤ
  deriving Repr, DecidableEq

/-- `ltp` as read by `upsert_price`: `float(price_data.get('ltp', 0))`. -/
def PriceData.ltpD (pd : PriceData) : ℚ := pd.ltp.getD 0

/-- `volume` as read by `upsert_price`: `int(price_data.get('volume', 0))`. -/
def PriceData.volD (pd : PriceData) : ℤ := pd.volume.getD 0

/-- `oi` as read by `upsert_price`: `int(price_data.get('oi', 0))`. -/
def PriceData.oiD (pd : PriceData) : ℤ := pd.oi.getD 0

/-- `PriceDatabase.upsert_price` (src/realtime_prices/database.py, lines
133-186) restricted to one `(date, symbol, exchange)` key: the `SELECT`
of the existing row is the `existing` argument, and the row resulting
from the `UPDATE`/`INSERT` is returned. -/
def upsert_price (existing : Option PriceRow) (pd : PriceData) : PriceRow :=
  let current_price := pd.ltpD
  let volume := pd.volD
  let oi := pd.oiD
  match existing with
  | some old =>
      { openPx := old.openPx
        highPx := max old.highPx current_price
        lowPx := if old.lowPx > 0 then min old.lowPx current_price else current_price
        closePx := current_price
        volume := max old.volume volume
        oi := if oi > 0 then oi else old.oi }
  | Option.none =>
      { openPx := pd.openPx.getD current_price
        highPx := pd.highPx.getD current_price
        lowPx := pd.lowPx.getD current_price
        closePx := current_price
        volume := volume
        oi := oi }

/-- Applying `upsert_price` to every tick of a sequence in order,
starting from an empty table (no row for the key yet). -/
def upsertSeq (pds : List PriceData) : Option PriceRow :=
  pds.foldl (fun acc pd => some (upsert_price acc pd)) Option.none

/-- Folding the update branch of `upsert_price` over further ticks,
starting from an existing row. -/
def updateFold (r : PriceRow) (ts : List PriceData) : PriceRow :=
  ts.foldl (fun acc pd => upsert_price (some acc) pd) r

/-- The `high` value claimed by the spec's upsert-monotonicity property:
the maximum of every `lastPrice` together with the first tick's seed
`high` (`tick.high or tick.lastPrice`, Python `or` treating an absent
and a zero `high` alike). -/
def claimedHigh (pd0 : PriceData) (pds : List PriceData) : ℚ :=
  let seed := match pd0.highPx with
    | some h => if h = 0 then pd0.ltpD else h
    | Option.none => pd0.ltpD
  ((pd0 :: pds).map PriceData.ltpD).foldl max seed

end Db

/-! ### Symbol mapping: `src/database/token_db.py` -/

namespace TokenDb

/-- One entry of the `_mock_tokens` table. -/
structure TokenInfo where
  token : String
  brsymbol : String
  brexchange : String
  deriving Repr, DecidableEq

/-- `_mock_tokens` (src/database/token_db.py, lines 14-22). -/
def mock_tokens : List ((String × String) × TokenInfo) :=
  [ (("RELIANCE", "NSE"), ⟨"2885", "RELIANCE", "NSE"⟩),
    (("TCS", "NSE"), ⟨"11536", "TCS", "NSE"⟩),
    (("INFY", "NSE"), ⟨"9220", "INFY", "NSE"⟩),
    (("ICICIBANK", "NSE"), ⟨"4963", "ICICIBANK", "NSE"⟩),
    (("SBIN", "NSE"), ⟨"3045", "SBIN", "NSE"⟩),
    (("NIFTY", "NSE_INDEX"), ⟨"99926000", "NIFTY 50", "NSE"⟩),
    (("SENSEX", "BSE_INDEX"), ⟨"1", "SENSEX", "BSE"⟩) ]

/-- `get_br_symbol` / `get_br_symbol_dbquery` (src/database/token_db.py,
lines 122-151).  The TTL cache is semantically transparent (it caches
exactly the query result), so the model is the query itself.  On a
lookup miss the source returns the original `symbol` ("Fallback to
original symbol"), never `None`. -/
def get_br_symbol (symbol exchange : String) : String :=
  match mock_tokens.lookup (symbol, exchange) with
  | some d => d.brsymbol
  | Option.none => symbol

end TokenDb

/-! ### The ingest controller: `AngelPriceStreamer` -/

namespace Streamer

/-- The `price_data` dict built by `_handle_market_data`
(src/realtime_prices/streamer.py, lines 323-334). -/
structure PriceDict where
  ltp : PyVal
  openV : PyVal
  highV : PyVal
  lowV : PyVal
  closeV : PyVal
  volume : PyVal
  oi : PyVal
  bid : PyVal
  ask : PyVal
  ts : PyVal
  deriving Repr, DecidableEq

/-- Building `price_data` from the raw feed fields; `now_ms` stands for
`int(time.time() * 1000)`. -/
def buildPriceDict (now_ms : ℚ) (data : List (String × PyVal)) : PriceDict :=
  { ltp := pyOr (dget data "lp") (pyOr (dget data "ltp") (.num 0))
    openV := pyOr (dget data "o") (pyOr (dget data "open") (.num 0))
    highV := pyOr (dget data "h") (pyOr (dget data "high") (.num 0))
    lowV := pyOr (dget data "l") (pyOr (dget data "low") (.num 0))
    closeV := pyOr (dget data "c") (pyOr (dget data "close")
      (pyOr (dget data "lp") (pyOr (dget data "ltp") (.num 0))))
    volume := pyOr (dget data "v") (pyOr (dget data "volume") (.num 0))
    oi := pyOr (dget data "oi") (.num 0)
    bid := pyOr (dget data "bp1") (pyOr (dget data "bid") (.num 0))
    ask := pyOr (dget data "sp1") (pyOr (dget data "ask") (.num 0))
    ts := pyOr (dget data "timestamp") (pyOr (dget data "ft") (.num now_ms)) }

/-- Symbol/exchange extraction from the message topic
(src/realtime_prices/streamer.py, lines 296-301): when the topic is a
nonempty string containing `'_'`, `exchange` is the part before the
first underscore and `symbol` the part after it.  Returns
`(symbol, exchange)`. -/
def topicParse (topic : Option String) : PyVal × PyVal :=
  match topic with
  | some t =>
      if t.data.contains '_' then
        let parts := pySplit t '_'
        if parts.length ≥ 2 then (.str (parts.getD 1 ""), .str (parts.getD 0 ""))
        else (.none, .none)
      else (.none, .none)
  | Option.none => (.none, .none)

/-- Symbol/exchange resolution (src/realtime_prices/streamer.py, lines
291-315): topic first, falling back to the in-message fields.  When the
fallback symbol is a truthy value, `.isdigit()` is called on it (raising
`AttributeError` on a non-string).  When it is a digit string, the
source enters the token-mapping `try` block and calls
`get_br_symbol(symbol)`; `get_br_symbol` takes two required parameters
(src/database/token_db.py, line 122), so that call raises `TypeError`,
the inner `except` logs it at debug level, and `symbol`/`exchange` are
left unchanged — the block is a no-op in every case. -/
def resolveSymEx (topic : Option String) (data : List (String × PyVal)) :
    Except PyErr (PyVal × PyVal) :=
  let se := topicParse topic
  if !(pyTruthy se.1) && !data.isEmpty then
    let symbol := pyOr (dget data "symbol") (dget data "tk")
    let exchange := pyOr (dget data "exchange") (dget data "e")
    if pyTruthy symbol then
      match pyIsDigit symbol with
      | .error e => .error e
      | .ok _ => .ok (symbol, exchange)
    else .ok (symbol, exchange)
  else .ok se

/-- The LTP validation (src/realtime_prices/streamer.py, lines 337-339):
`if not price_data['ltp'] or price_data['ltp'] <= 0: return`.  `.ok
true` means the tick is dropped, `.ok false` that processing continues;
comparing a non-number with `0` raises `TypeError`. -/
def ltpCheck (v : PyVal) : Except PyErr Bool :=
  if !(pyTruthy v) then .ok true
  else match v with
    | .num q => .ok (decide (q ≤ 0))
    | _ => .error .typeError

/-- `self.min_update_interval = 1.0` (seconds between DB updates per symbol). -/
def min_update_interval : ℚ := 1

/-- The `AngelPriceStreamer` state touched by `_handle_market_data`:
message statistics, the per-key rate-limit timestamps
`_last_db_update`, and the successful `upsert_price` calls issued to the
store (each such call updates the `prices` row and appends a
`real_time_ticks` row). -/
structure StreamState where
  messagesReceived : ℕ
  dbUpdates : ℕ
  warnLogs : ℕ
  lastDbUpdate : List (String × ℚ)
  writes : List (PyVal × PyVal × PriceDict)
  deriving Repr, DecidableEq

/-- A freshly constructed streamer: no messages, no rate-limit stamps,
no store writes. -/
def initState : StreamState := ⟨0, 0, 0, [], []⟩

/-- The body of `_handle_market_data` (src/realtime_prices/streamer.py,
lines 282-360), i.e. the contents of its `try` block.  `now` is
`time.time()`, `dbOk` tells whether `self.db.upsert_price` succeeds, and
`loopOk` whether `asyncio.create_task` finds a running event loop.  On
`.error` the state reached so far is kept (Python keeps mutations made
before an exception). The returned list holds the `_broadcast_update`
tasks created, each carrying `(symbol, exchange, price_data)`. -/
def handleBody (now : ℚ) (dbOk loopOk : Bool) (topic : Option String)
    (data : List (String × PyVal)) (st0 : StreamState) :
    Except (StreamState × PyErr) (StreamState × List (PyVal × PyVal × PriceDict)) :=
  let st := {st0 with messagesReceived := st0.messagesReceived + 1}
  match resolveSymEx topic data with
  | .error e => .error (st, e)
  | .ok (symbol, exchange) =>
    if !(pyTruthy symbol) || !(pyTruthy exchange) then
      .ok ({st with warnLogs := st.warnLogs + 1}, [])
    else
      let pd := buildPriceDict (now * 1000) data
      match ltpCheck pd.ltp with
      | .error e => .error (st, e)
      | .ok true => .ok (st, [])
      | .ok false =>
        let key := pyStr symbol ++ "." ++ pyStr exchange
        let allowed := match st.lastDbUpdate.lookup key with
          | Option.none => true
          | some tl => decide (now - tl ≥ min_update_interval)
        let st2 := if allowed then
            (if dbOk then
              { st with dbUpdates := st.dbUpdates + 1,
                        lastDbUpdate := setAssoc st.lastDbUpdate key now,
                        writes := st.writes ++ [(symbol, exchange, pd)] }
             else { st with warnLogs := st.warnLogs + 1 })
          else st
        if loopOk then .ok (st2, [(symbol, exchange, pd)])
        else .error (st2, .runtimeError)

/-- What the feed-source callback produced: the streamer state, the
broadcast tasks created, and the exception it let escape to the caller
(if any). -/
structure CallbackResult where
  state : StreamState
  msgs : List (PyVal × PyVal × PriceDict)
  raised : Option PyErr
  deriving Repr, DecidableEq

/-- `_handle_market_data` (src/realtime_prices/streamer.py, lines
274-363): the whole body runs inside `try`, and `except Exception`
logs the error and returns normally, so no exception escapes and no
broadcast is produced on the error paths. -/
def handle_market_data (now : ℚ) (dbOk loopOk : Bool) (topic : Option String)
    (data : List (String × PyVal)) (st0 : StreamState) : CallbackResult :=
  match handleBody now dbOk loopOk topic data st0 with
  | .ok (st, msgs) => ⟨st, msgs, Option.none⟩
  | .error (st, _e) => ⟨st, [], Option.none⟩

/-- The reconnection state of the streamer: `self.reconnect_attempts`
and `self.running`. -/
structure ReconnState where
  reconnect_attempts : ℕ
  running : Bool
  deriving Repr, DecidableEq

/-- `_handle_reconnection` (src/realtime_prices/streamer.py, lines
429-447), with `reconnect_delay = 5`, `max_reconnect_delay = 60` and
`max_reconnect_attempts = 10`.  Returns the new state and the delay
slept before the attempt (`none` when the attempt budget is exhausted
and streaming is stopped instead).  `connectOk` tells whether
`_initialize_websocket()` succeeds; on success the attempt counter is
reset to 0.  Note the counter is incremented *before* the delay is
computed. -/
def handle_reconnection (st : ReconnState) (connectOk : Bool) :
    ReconnState × Option ℚ :=
  if st.reconnect_attempts ≥ 10 then ({ st with running := false }, Option.none)
  else
    let attempts := st.reconnect_attempts + 1
    let delay := min ((5 : ℚ) * 2 ^ attempts) 60
    if connectOk then ({ st with reconnect_attempts := 0 }, some delay)
    else ({ st with reconnect_attempts := attempts }, some delay)

/-- The delays produced by `n` consecutive failed reconnection attempts
starting from `st` (stopping early if the budget runs out). -/
def failureDelays (st : ReconnState) : ℕ → List ℚ
  | 0 => []
  | n + 1 =>
      match handle_reconnection st false with
      | (st', some d) => d :: failureDelays st' n
      | (_, Option.none) => []

/-- The delay the spec claims for the `n`-th consecutive failure:
`min(baseDelay * 2^attempt, maxDelay)` with the attempt counter starting
at 0, i.e. `min(5 * 2^(n-1), 60)` — the sequence `5, 10, 20, 40, 60, …`. -/
def claimedBackoffDelay (n : ℕ) : ℚ := min ((5 : ℚ) * 2 ^ (n - 1)) 60

end Streamer

/-! ### Fanout: `WebSocketManager` in `src/realtime_prices/api.py` -/

namespace Api

/-- The `WebSocketManager` state: `active_connections`, `subscriptions`
(connection → subscribed symbol keys), `latest_prices` (symbol key →
latest cached message payload) and `last_sent` (symbol key → time of
last delivery).  Connections are identified by naturals. -/
structure MgrState where
  active : List ℕ
  subs : List (ℕ × List String)
  latest : List (String × Streamer.PriceDict)
  lastSent : List (String × ℚ)
  deriving Repr, DecidableEq

/-- `WebSocketManager.disconnect` (src/realtime_prices/api.py, lines
142-148): remove the connection from `active_connections` and delete its
`subscriptions` entry. -/
def disconnect (st : MgrState) (c : ℕ) : MgrState :=
  { st with active := st.active.erase c,
            subs := st.subs.filter (fun p => p.1 != c) }

/-- `WebSocketManager.subscribe_symbol` (src/realtime_prices/api.py,
lines 179-186): create the connection's entry if missing, then append
the symbol key only when it is not already present. -/
def subscribe_symbol (st : MgrState) (c : ℕ) (k : String) : MgrState :=
  let subs1 := if st.subs.any (fun p => p.1 == c) then st.subs else st.subs ++ [(c, [])]
  let cur := (subs1.lookup c).getD []
  if k ∈ cur then { st with subs := subs1 }
  else { st with subs := setAssoc subs1 c (cur ++ [k]) }

/-- `WebSocketManager.unsubscribe_symbol` (src/realtime_prices/api.py,
lines 188-193): remove the symbol key from the connection's list when
present; otherwise do nothing. -/
def unsubscribe_symbol (st : MgrState) (c : ℕ) (k : String) : MgrState :=
  match st.subs.lookup c with
  | Option.none => st
  | some cur =>
      if k ∈ cur then { st with subs := setAssoc st.subs c (cur.erase k) }
      else st

/-- `WebSocketManager.broadcast` (src/realtime_prices/api.py, lines
158-177): walk `active_connections`; skip connections not subscribed to
the filter key; send to the rest.  `fails` is the set of connections
whose `send_text` raises; a failed send is recorded and the loop
continues; afterwards every failed connection is disconnected.  Returns
the new state and the `(connection, message)` deliveries made. -/
def broadcast (st : MgrState) (fails : List ℕ) (msg : String)
    (symbolFilter : Option String) : MgrState × List (ℕ × String) :=
  let targets := st.active.filter (fun c =>
    match symbolFilter with
    | Option.none => true
    | some k => ((st.subs.lookup c).getD []).contains k)
  let delivered := targets.filter (fun c => !(fails.contains c))
  let failed := targets.filter (fun c => fails.contains c)
  (failed.foldl disconnect st, delivered.map (fun c => (c, msg)))

/-- `self.last_sent.get(symbol_key, 0)`. -/
def lastSentD (st : MgrState) (k : String) : ℚ := (st.lastSent.lookup k).getD 0

/-- One iteration of the `push_latest_prices` loop
(src/realtime_prices/api.py, lines 210-230) for the cached entry
`(k, v)` at time `t`: if at least 0.5s elapsed since the key was last
sent, send the payload to every active connection subscribed to `k`
(a failing connection is only logged, *not* removed), and update
`last_sent[k]` only when at least one send succeeded. -/
def sentFor (fails : List ℕ) (st : MgrState) (k : String) : List ℕ :=
  st.active.filter (fun c =>
    ((st.subs.lookup c).getD []).contains k && !(fails.contains c))

def pushOne (t : ℚ) (fails : List ℕ) (st : MgrState) (k : String)
    (v : Streamer.PriceDict) : MgrState × List (ℕ × String × Streamer.PriceDict) :=
  if t - lastSentD st k ≥ (1 : ℚ) / 2 then
    ((if (sentFor fails st k).isEmpty then st
      else { st with lastSent := setAssoc st.lastSent k t }),
     (sentFor fails st k).map (fun c => (c, k, v)))
  else (st, [])

/-- The `for symbol_key, price_data in self.latest_prices.items()` loop
of `push_latest_prices`, iterating over the snapshot `items` of the
cache. -/
def pushItems (t : ℚ) (fails : List ℕ) :
    List (String × Streamer.PriceDict) → MgrState →
    MgrState × List (ℕ × String × Streamer.PriceDict)
  | [], st => (st, [])
  | (k, v) :: items, st =>
      let p1 := pushOne t fails st k v
      let p2 := pushItems t fails items p1.1
      (p2.1, p1.2 ++ p2.2)

/-- `WebSocketManager.push_latest_prices` (src/realtime_prices/api.py,
lines 204-233): one dissemination pass at time `t`. -/
def push_latest_prices (t : ℚ) (fails : List ℕ) (st : MgrState) :
    MgrState × List (ℕ × String × Streamer.PriceDict) :=
  pushItems t fails st.latest st

/-- Repeated dissemination passes (the `price_pusher_task` loop): each
element of `passes` is the pass time together with the connections whose
sends fail during that pass.  Returns, per pass, the pass time and the
deliveries made. -/
def runPasses (st : MgrState) :
    List (ℚ × List ℕ) → List (ℚ × List (ℕ × String × Streamer.PriceDict))
  | [] => []
  | (t, fails) :: rest =>
      (t, (push_latest_prices t fails st).2) ::
        runPasses (push_latest_prices t fails st).1 rest

/-- The times of the passes in which connection `c` received a delivery
for symbol key `k`. -/
def deliveryTimes (st : MgrState) (passes : List (ℚ × List ℕ)) (c : ℕ)
    (k : String) : List ℚ :=
  (runPasses st passes).filterMap (fun p =>
    if p.2.any (fun d => d.1 == c && d.2.1 == k) then some p.1 else Option.none)

/-- Number of subscription entries the registry holds for the pair
`(c, k)`. -/
def countKey (st : MgrState) (c : ℕ) (k : String) : ℕ :=
  ((st.subs.lookup c).getD []).count k

end Api

namespace Streamer

/-- `_broadcast_update` (src/realtime_prices/streamer.py, lines
365-427) for one validated tick: send the serialized message to every
direct streamer subscriber (failing ones are collected and removed from
`self._subscribers`), store the message in `manager.latest_prices` under
`f"{exchange}_{symbol}"`, and — when a running event loop is available —
schedule `manager.broadcast(message_json, symbol_key)` for that key.
Returns the direct deliveries, the updated manager state, and the
scheduled broadcast key (if any). -/
def broadcast_update (streamerSubs fails : List ℕ) (loopRunning : Bool)
    (mgr : Api.MgrState) (symbol exchange : PyVal) (pd : PriceDict) :
    List ℕ × Api.MgrState × Option String :=
  let direct := streamerSubs.filter (fun c => !(fails.contains c))
  let key := pyStr exchange ++ "_" ++ pyStr symbol
  let mgr' := { mgr with latest := setAssoc mgr.latest key pd }
  (direct, mgr', if loopRunning then some key else Option.none)

end Streamer

/-! ### Numeric representations on the store's read paths -/

namespace FloatModel

/-- A value of the `DECIMAL(12,2)` columns of the `prices` and
`real_time_ticks` tables: an integer number of hundredths. -/
def isDecimal2 (q : ℚ) : Prop := ∃ n : ℤ, q = (n : ℚ) / 100

/-- A value exactly representable by a CPython `float` (an IEEE-754
binary64): `m · 2^e` with `|m| < 2^53`.  Every read path of
`PriceDatabase` (`get_current_price`, `get_price_history`,
`get_recent_ticks`) converts each decimal column with `float(...)`, so
every numeric price result it returns lies in this set. -/
def floatRepresentable (q : ℚ) : Prop :=
  ∃ (m e : ℤ), |m| < 2 ^ 53 ∧ q = (m : ℚ) * (2 : ℚ) ^ e

/-- The claim that the `float(...)` conversions on the read paths are
lossless: every `DECIMAL(12,2)` column value has an exact binary64
representation. -/
def readPathExact : Prop := ∀ q : ℚ, isDecimal2 q → floatRepresentable q

end FloatModel

/-! ## Theorems

### C1: the upsert fold over a tick sequence -/

namespace Db

theorem upsertSeq_cons (pd0 : PriceData) (rest : List PriceData) :
    upsertSeq (pd0 :: rest) = some (updateFold (upsert_price Option.none pd0) rest) := by
  suffices h : ∀ (ts : List PriceData) (r : PriceRow),
      ts.foldl (fun acc pd => some (upsert_price acc pd)) (some r) = some (updateFold r ts) by
    simpa [upsertSeq] using h rest (upsert_price Option.none pd0)
  intro ts
  induction ts with
  | nil => intro r; simp [updateFold]
  | cons t ts ih => intro r; simpa [updateFold, List.foldl_cons] using ih (upsert_price (some r) t)

theorem updateFold_openPx (r : PriceRow) (ts : List PriceData) :
    (updateFold r ts).openPx = r.openPx := by
  induction ts generalizing r with
  | nil => rfl
  | cons t ts ih => simpa [updateFold, upsert_price] using ih (upsert_price (some r) t)

theorem updateFold_closePx (r : PriceRow) (ts : List PriceData) :
    (updateFold r ts).closePx = ts.foldl (fun _ pd => pd.ltpD) r.closePx := by
  induction ts generalizing r with
  | nil => rfl
  | cons t ts ih =>
      simpa [updateFold, upsert_price, List.foldl_cons] using ih (upsert_price (some r) t)

theorem updateFold_highPx (r : PriceRow) (ts : List PriceData) :
    (updateFold r ts).highPx = ts.foldl (fun a pd => max a pd.ltpD) r.highPx := by
  induction ts generalizing r with
  | nil => rfl
  | cons t ts ih =>
      simpa [updateFold, upsert_price, List.foldl_cons] using ih (upsert_price (some r) t)

theorem updateFold_volume (r : PriceRow) (ts : List PriceData) :
    (updateFold r ts).volume = ts.foldl (fun a pd => max a pd.volD) r.volume := by
  induction ts generalizing r with
  | nil => rfl
  | cons t ts ih =>
      simpa [updateFold, upsert_price, List.foldl_cons] using ih (upsert_price (some r) t)

theorem updateFold_lowPx_pos (r : PriceRow) (ts : List PriceData)
    (hr : 0 < r.lowPx) (hts : ∀ pd ∈ ts, 0 < pd.ltpD) :
    (updateFold r ts).lowPx = ts.foldl (fun a pd => min a pd.ltpD) r.lowPx := by
  induction ts generalizing r with
  | nil => rfl
  | cons t ts ih =>
      have ht : 0 < t.ltpD := hts t (by simp)
      have hstep : (upsert_price (some r) t).lowPx = min r.lowPx t.ltpD := by
        simp [upsert_price, hr]
      have hpos : 0 < (upsert_price (some r) t).lowPx := by
        rw [hstep]; exact lt_min hr ht
      have := ih (upsert_price (some r) t) hpos (fun pd hpd => hts pd (by simp [hpd]))
      simpa [updateFold, List.foldl_cons, hstep] using this

theorem updateFold_lowPx_nonpos (r : PriceRow) (t : PriceData) (ts : List PriceData)
    (hr : r.lowPx ≤ 0) (hts : ∀ pd ∈ t :: ts, 0 < pd.ltpD) :
    (updateFold r (t :: ts)).lowPx = ts.foldl (fun a pd => min a pd.ltpD) t.ltpD := by
  have ht : 0 < t.ltpD := hts t (by simp)
  have hstep : (upsert_price (some r) t).lowPx = t.ltpD := by
    simp [upsert_price, not_lt.mpr hr]
  have := updateFold_lowPx_pos (upsert_price (some r) t) ts (by rw [hstep]; exact ht)
    (fun pd hpd => hts pd (by simp [hpd]))
  simpa [updateFold, List.foldl_cons, hstep] using this

/-- C1 (counterexample): a single tick with `lastPrice = 100` and a
present seed `high = 50` yields an aggregate whose `high` is 50, not the
claimed maximum of all `lastPrice` values and the seed (which is 100):
the first tick's `lastPrice` is never folded into `high`. -/
theorem c1_upsert_claim_refuted :
    (upsertSeq [⟨some 100, some 10, some 0, some 99, some 50, some 60⟩]).map PriceRow.highPx
        = some 50
      ∧ claimedHigh ⟨some 100, some 10, some 0, some 99, some 50, some 60⟩ [] = 100
      ∧ (50 : ℚ) ≠ 100 := by
  refine ⟨?_, ?_, by norm_num⟩
  · rfl
  · decide

/-- C1 (amended): for a sequence of ticks with strictly positive
`lastPrice` for one key, the resulting row satisfies: `open` is the
first tick's seed open; `close` is the last tick's `lastPrice`;
`high` is the maximum of the first tick's seed high and the `lastPrice`
of every *later* tick (the first `lastPrice` participates only through
the seed defaults, which apply when the field is absent); `volume` is
the maximum volume seen; `low` is the minimum of the seed low and the
later `lastPrice`s when the seed low is strictly positive, and the
minimum of the later `lastPrice`s alone (or the nonpositive seed itself
if there is no later tick) otherwise. -/
theorem c1_upsert_fold (pd0 : PriceData) (rest : List PriceData)
    (hpos : ∀ pd ∈ pd0 :: rest, 0 < pd.ltpD) :
    ∃ r, upsertSeq (pd0 :: rest) = some r
      ∧ r.openPx = pd0.openPx.getD pd0.ltpD
      ∧ r.closePx = rest.foldl (fun _ pd => pd.ltpD) pd0.ltpD
      ∧ r.highPx = rest.foldl (fun a pd => max a pd.ltpD) (pd0.highPx.getD pd0.ltpD)
      ∧ r.volume = rest.foldl (fun a pd => max a pd.volD) pd0.volD
      ∧ (0 < pd0.lowPx.getD pd0.ltpD →
          r.lowPx = rest.foldl (fun a pd => min a pd.ltpD) (pd0.lowPx.getD pd0.ltpD))
      ∧ (pd0.lowPx.getD pd0.ltpD ≤ 0 → ∀ t ts, rest = t :: ts →
          r.lowPx = ts.foldl (fun a pd => min a pd.ltpD) t.ltpD)
      ∧ (pd0.lowPx.getD pd0.ltpD ≤ 0 → rest = [] →
          r.lowPx = pd0.lowPx.getD pd0.ltpD) := by
  have hrest : ∀ pd ∈ rest, 0 < pd.ltpD := fun pd hpd => hpos pd (by simp [hpd])
  have hins : upsert_price Option.none pd0 =
      { openPx := pd0.openPx.getD pd0.ltpD
        highPx := pd0.highPx.getD pd0.ltpD
        lowPx := pd0.lowPx.getD pd0.ltpD
        closePx := pd0.ltpD
        volume := pd0.volD
        oi := pd0.oiD } := rfl
  refine ⟨updateFold (upsert_price Option.none pd0) rest, upsertSeq_cons pd0 rest,
    ?_, ?_, ?_, ?_, ?_, ?_, ?_⟩
  · rw [updateFold_openPx, hins]
  · rw [updateFold_closePx, hins]
  · rw [updateFold_highPx, hins]
  · rw [updateFold_volume, hins]
  · intro hlow
    rw [updateFold_lowPx_pos _ _ (by rw [hins]; exact hlow) hrest, hins]
  · intro hlow t ts hrt
    subst hrt
    rw [updateFold_lowPx_nonpos _ _ _ (by rw [hins]; exact hlow) hrest]
  · intro hlow hrt
    subst hrt
    rw [hins]
    rfl

/-- C1 (witness): the spec's own scenario — prices `100, 102, 98, 101`
with volumes `10, 15, 15, 20` and no explicit OHLC seed fields — gives
`open = 100`, `close = 101`, `high = 102`, `volume = 20`, `low = 98`. -/
theorem c1_upsert_fold_witness :
    ∃ r, upsertSeq
        [⟨some 100, some 10, some 0, Option.none, Option.none, Option.none⟩,
         ⟨some 102, some 15, some 0, Option.none, Option.none, Option.none⟩,
         ⟨some 98, some 15, some 0, Option.none, Option.none, Option.none⟩,
         ⟨some 101, some 20, some 0, Option.none, Option.none, Option.none⟩] = some r
      ∧ r.openPx = (⟨some 100, some 10, some 0, Option.none, Option.none, Option.none⟩ :
          PriceData).openPx.getD (PriceData.ltpD ⟨some 100, some 10, some 0, Option.none,
          Option.none, Option.none⟩)
      ∧ r.closePx = [(⟨some 102, some 15, some 0, Option.none, Option.none, Option.none⟩ :
            PriceData),
          ⟨some 98, some 15, some 0, Option.none, Option.none, Option.none⟩,
          ⟨some 101, some 20, some 0, Option.none, Option.none, Option.none⟩].foldl
            (fun _ pd => pd.ltpD)
            (PriceData.ltpD ⟨some 100, some 10, some 0, Option.none, Option.none, Option.none⟩)
      ∧ r.highPx = [(⟨some 102, some 15, some 0, Option.none, Option.none, Option.none⟩ :
            PriceData),
          ⟨some 98, some 15, some 0, Option.none, Option.none, Option.none⟩,
          ⟨some 101, some 20, some 0, Option.none, Option.none, Option.none⟩].foldl
            (fun a pd => max a pd.ltpD)
            ((⟨some 100, some 10, some 0, Option.none, Option.none, Option.none⟩ :
              PriceData).highPx.getD (PriceData.ltpD ⟨some 100, some 10, some 0, Option.none,
              Option.none, Option.none⟩))
      ∧ r.volume = [(⟨some 102, some 15, some 0, Option.none, Option.none, Option.none⟩ :
            PriceData),
          ⟨some 98, some 15, some 0, Option.none, Option.none, Option.none⟩,
          ⟨some 101, some 20, some 0, Option.none, Option.none, Option.none⟩].foldl
            (fun a pd => max a pd.volD)
            (PriceData.volD ⟨some 100, some 10, some 0, Option.none, Option.none, Option.none⟩)
      ∧ (0 < (⟨some 100, some 10, some 0, Option.none, Option.none, Option.none⟩ :
            PriceData).lowPx.getD (PriceData.ltpD ⟨some 100, some 10, some 0, Option.none,
            Option.none, Option.none⟩) →
          r.lowPx = [(⟨some 102, some 15, some 0, Option.none, Option.none, Option.none⟩ :
              PriceData),
            ⟨some 98, some 15, some 0, Option.none, Option.none, Option.none⟩,
            ⟨some 101, some 20, some 0, Option.none, Option.none, Option.none⟩].foldl
              (fun a pd => min a pd.ltpD)
              ((⟨some 100, some 10, some 0, Option.none, Option.none, Option.none⟩ :
                PriceData).lowPx.getD (PriceData.ltpD ⟨some 100, some 10, some 0, Option.none,
                Option.none, Option.none⟩))) := by
  obtain ⟨r, h1, h2, h3, h4, h5, h6, -, -⟩ :=
    c1_upsert_fold ⟨some 100, some 10, some 0, Option.none, Option.none, Option.none⟩
      [⟨some 102, some 15, some 0, Option.none, Option.none, Option.none⟩,
       ⟨some 98, some 15, some 0, Option.none, Option.none, Option.none⟩,
       ⟨some 101, some 20, some 0, Option.none, Option.none, Option.none⟩]
      (by decide)
  exact ⟨r, h1, h2, h3, h4, h5, h6⟩

end Db

/-! ### C3: reconnection backoff -/

namespace Streamer

theorem failureDelays_eq_range (n : ℕ) : ∀ a : ℕ, a + n ≤ 10 →
    failureDelays ⟨a, true⟩ n =
      (List.range n).map (fun i => min ((5 : ℚ) * 2 ^ (a + i + 1)) 60) := by
  induction n with
  | zero => intro a _; rfl
  | succ n ih =>
      intro a ha
      have ha10 : ¬ a ≥ 10 := by omega
      have hstep : failureDelays ⟨a, true⟩ (n + 1) =
          min ((5 : ℚ) * 2 ^ (a + 1)) 60 :: failureDelays ⟨a + 1, true⟩ n := by
        simp [failureDelays, handle_reconnection, ha10]
      rw [hstep, ih (a + 1) (by omega), List.range_succ_eq_map, List.map_cons, List.map_map]
      refine congrArg₂ _ (by norm_num) ?_
      refine List.map_congr_left fun i _ => ?_
      have : a + 1 + i + 1 = a + (i + 1) + 1 := by omega
      simp [Function.comp, this]

/-- C3 (amended): with `reconnect_delay = 5` and
`max_reconnect_delay = 60`, the `n`-th consecutive failure sleeps
`min(5 · 2^n, 60)` — the sequence is `10, 20, 40, 60, 60, …`, not
`5, 10, 20, 40, 60, …`, because the attempt counter is incremented
before the delay is computed — and the counter resets to 0 on any
successful reconnection. -/
theorem c3_backoff (n : ℕ) (hn : n ≤ 10) (st : ReconnState)
    (hst : st.reconnect_attempts < 10) :
    failureDelays ⟨0, true⟩ n =
        (List.range n).map (fun i => min ((5 : ℚ) * 2 ^ (i + 1)) 60)
      ∧ (handle_reconnection st true).1.reconnect_attempts = 0 := by
  constructor
  · simpa using failureDelays_eq_range n 0 (by omega)
  · simp [handle_reconnection, Nat.not_le.mpr hst]

/-- C3 (witness): ten consecutive failures from a fresh state sleep
`10, 20, 40, 60, 60, 60, 60, 60, 60, 60` seconds, and a success at
attempt counter 3 resets the counter to 0. -/
theorem c3_backoff_witness :
    failureDelays ⟨0, true⟩ 10 =
        (List.range 10).map (fun i => min ((5 : ℚ) * 2 ^ (i + 1)) 60)
      ∧ (handle_reconnection ⟨3, true⟩ true).1.reconnect_attempts = 0 :=
  c3_backoff 10 (by decide) ⟨3, true⟩ (by decide)

/-- C3 (counterexample): the delay slept before the first reconnection
attempt after a fresh failure is 10 seconds, while the claimed sequence
starts at `min(5 · 2^0, 60) = 5`. -/
theorem c3_backoff_claim_refuted :
    (handle_reconnection ⟨0, true⟩ false).2 = some 10
      ∧ claimedBackoffDelay 1 = 5 ∧ (10 : ℚ) ≠ 5 := by
  refine ⟨?_, ?_, by norm_num⟩
  · simp [handle_reconnection]; norm_num
  · simp [claimedBackoffDelay]; norm_num

end Streamer

/-! ### C8: decimal columns versus binary64 read results -/

theorem not_floatRepresentable_one_tenth :
    ¬ FloatModel.floatRepresentable ((1 : ℚ) / 10) := by
  rintro ⟨m, e, _hm, heq⟩
  rcases le_or_lt 0 e with he | he
  · lift e to ℕ using he
    rw [zpow_natCast] at heq
    have h2pos : (0 : ℚ) < 2 ^ e := by positivity
    have h1 : (1 : ℚ) = 10 * ((m : ℚ) * 2 ^ e) := by
      field_simp at heq
      linarith
    have h2 : (1 : ℤ) = 10 * (m * 2 ^ e) := by exact_mod_cast h1
    have hdvd : (10 : ℤ) ∣ 1 := Dvd.intro _ h2.symm
    norm_num at hdvd
  · have hek : e = -((-e).toNat : ℤ) := by omega
    set k : ℕ := (-e).toNat
    rw [hek, zpow_neg, zpow_natCast] at heq
    have h2pos : (0 : ℚ) < 2 ^ k := by positivity
    have h1 : (2 : ℚ) ^ k = 10 * (m : ℚ) := by
      field_simp at heq
      linarith
    have h2 : (2 : ℤ) ^ k = 10 * m := by exact_mod_cast h1
    have h5 : (5 : ℤ) ∣ 2 ^ k := ⟨2 * m, by linarith⟩
    have hp : Prime (5 : ℤ) := by norm_num
    have h52 := hp.dvd_of_dvd_pow h5
    norm_num at h52

/-- C8 (counterexample): the read paths of `PriceDatabase` are not
exact on decimal values: the `DECIMAL(12,2)` value `0.10` has no exact
binary64 (`float`) representation, so `float(...)` on the read path
cannot return it exactly. -/
theorem c8_read_claim_refuted : ¬ FloatModel.readPathExact := fun h =>
  not_floatRepresentable_one_tenth (h ((1 : ℚ) / 10) ⟨10, by norm_num⟩)

/-! ### Association-list helper lemmas (Python dict semantics) -/

section AssocLemmas

variable {κ α : Type} [BEq κ] [LawfulBEq κ]

omit [LawfulBEq κ] in
theorem lookup_nil_eqn (q : κ) : List.lookup q ([] : List (κ × α)) = Option.none := rfl

omit [LawfulBEq κ] in
theorem lookup_cons_eqn (q a : κ) (b : α) (l : List (κ × α)) :
    List.lookup q ((a, b) :: l) = if q == a then some b else List.lookup q l := by
  cases h : q == a <;> simp [List.lookup, h]

theorem lookup_isSome_eq_any (m : List (κ × α)) (k : κ) :
    (m.lookup k).isSome = m.any (fun p => p.1 == k) := by
  induction m with
  | nil => rfl
  | cons p m ih =>
      obtain ⟨a, b⟩ := p
      rw [List.any_cons, lookup_cons_eqn]
      by_cases h : a = k
      · subst h; simp
      · simp only [beq_eq_false_iff_ne.mpr h, beq_eq_false_iff_ne.mpr (Ne.symm h)]
        simpa using ih

theorem lookup_map_set_self (m : List (κ × α)) (k : κ) (v : α)
    (h : ∃ p ∈ m, p.1 = k) :
    (m.map (fun p => if p.1 == k then (k, v) else p)).lookup k = some v := by
  induction m with
  | nil => simp at h
  | cons p m ih =>
      obtain ⟨a, b⟩ := p
      by_cases hak : a = k
      · subst hak
        simp [lookup_cons_eqn]
      · have h' : ∃ p ∈ m, p.1 = k := by
          rcases h with ⟨p, hp, hpk⟩
          rcases List.mem_cons.mp hp with rfl | hp'
          · exact absurd hpk hak
          · exact ⟨p, hp', hpk⟩
        simp only [List.map_cons, beq_eq_false_iff_ne.mpr hak, Bool.false_eq_true,
          if_false, lookup_cons_eqn, beq_eq_false_iff_ne.mpr (Ne.symm hak)]
        simpa using ih h'

theorem lookup_map_set_ne (m : List (κ × α)) (k k' : κ) (v : α) (h : k' ≠ k) :
    (m.map (fun p => if p.1 == k then (k, v) else p)).lookup k' = m.lookup k' := by
  induction m with
  | nil => rfl
  | cons p m ih =>
      obtain ⟨a, b⟩ := p
      by_cases hak : a = k
      · subst hak
        simp only [List.map_cons, beq_self_eq_true, if_true, lookup_cons_eqn,
          beq_eq_false_iff_ne.mpr h]
        simpa using ih
      · simp only [List.map_cons, beq_eq_false_iff_ne.mpr hak, Bool.false_eq_true,
          if_false, lookup_cons_eqn]
        by_cases hak' : k' = a
        · simp [hak']
        · simp only [beq_eq_false_iff_ne.mpr hak']
          simpa using ih

theorem lookup_eq_none_of_no_key (m : List (κ × α)) (k : κ)
    (h : ∀ p ∈ m, p.1 ≠ k) : m.lookup k = Option.none := by
  induction m with
  | nil => rfl
  | cons p m ih =>
      obtain ⟨a, b⟩ := p
      have ha : a ≠ k := h (a, b) (by simp)
      rw [lookup_cons_eqn]
      simp only [beq_eq_false_iff_ne.mpr (Ne.symm ha), Bool.false_eq_true, if_false]
      exact ih fun p hp => h p (by simp [hp])

theorem any_key_false_lookup_none (m : List (κ × α)) (k : κ)
    (h : m.any (fun p => p.1 == k) = false) : m.lookup k = Option.none := by
  refine lookup_eq_none_of_no_key m k fun p hp hpk => ?_
  have := List.any_eq_false.mp h p hp
  simp [hpk] at this

theorem lookup_append_single_ne (m : List (κ × α)) (k k' : κ) (v : α)
    (h : k' ≠ k) : (m ++ [(k, v)]).lookup k' = m.lookup k' := by
  induction m with
  | nil => simp [lookup_cons_eqn, beq_eq_false_iff_ne.mpr h, List.lookup]
  | cons p m ih =>
      obtain ⟨a, b⟩ := p
      rw [List.cons_append, lookup_cons_eqn, lookup_cons_eqn]
      by_cases hak : k' = a
      · simp [hak]
      · simp only [beq_eq_false_iff_ne.mpr hak, Bool.false_eq_true, if_false]
        exact ih

theorem lookup_append_of_none (m mx : List (κ × α)) (k : κ)
    (h : m.lookup k = Option.none) : (m ++ mx).lookup k = mx.lookup k := by
  induction m with
  | nil => rfl
  | cons p m ih =>
      obtain ⟨a, b⟩ := p
      rw [lookup_cons_eqn] at h
      rw [List.cons_append, lookup_cons_eqn]
      by_cases hak : k = a
      · simp [hak] at h
      · simp only [beq_eq_false_iff_ne.mpr hak, Bool.false_eq_true, if_false] at h ⊢
        exact ih h

theorem lookup_setAssoc_self (m : List (κ × α)) (k : κ) (v : α) :
    (setAssoc m k v).lookup k = some v := by
  unfold setAssoc
  by_cases h : m.any (fun p => p.1 == k) = true
  · rw [if_pos h]
    refine lookup_map_set_self m k v ?_
    rcases List.any_eq_true.mp h with ⟨p, hp, hpk⟩
    exact ⟨p, hp, by simpa using hpk⟩
  · rw [if_neg h]
    rw [lookup_append_of_none m _ k
      (any_key_false_lookup_none m k (Bool.eq_false_iff.mpr h))]
    simp [List.lookup]

theorem lookup_setAssoc_ne (m : List (κ × α)) (k k' : κ) (v : α) (h : k' ≠ k) :
    (setAssoc m k v).lookup k' = m.lookup k' := by
  unfold setAssoc
  by_cases hany : m.any (fun p => p.1 == k) = true
  · rw [if_pos hany]
    exact lookup_map_set_ne m k k' v h
  · rw [if_neg hany]
    exact lookup_append_single_ne m k k' v h

end AssocLemmas

/-- C8 (amended): the store's columns hold exact `DECIMAL(12,2)` values,
but every read path converts them with Python `float(...)` into binary64
values, and not every decimal column value is binary64-representable —
`0.10` is a decimal column value with no exact `float` representation —
so the numeric results of the read operations are binary floating-point
approximations, not exact decimals. -/
theorem c8_read_path_approximate :
    FloatModel.isDecimal2 ((1 : ℚ) / 10)
      ∧ ¬ FloatModel.floatRepresentable ((1 : ℚ) / 10) :=
  ⟨⟨10, by norm_num⟩, not_floatRepresentable_one_tenth⟩

/-! ### C9: idempotent subscribe/unsubscribe -/

namespace Api

theorem subs1_lookup (m : List (ℕ × List String)) (c : ℕ) :
    (if m.any (fun p => p.1 == c) then m else m ++ [(c, [])]).lookup c
      = some ((m.lookup c).getD []) := by
  by_cases h : m.any (fun p => p.1 == c) = true
  · rw [if_pos h]
    have hs : (m.lookup c).isSome = true := by rw [lookup_isSome_eq_any]; exact h
    cases hl : m.lookup c with
    | none => rw [hl] at hs; simp at hs
    | some l => simp [hl]
  · rw [if_neg h]
    have hn : m.lookup c = Option.none :=
      any_key_false_lookup_none m c (Bool.not_eq_true _ ▸ h)
    rw [lookup_append_of_none m _ c hn, hn]
    simp [List.lookup]

theorem subscribe_symbol_lookup (st : MgrState) (c : ℕ) (k : String) :
    (subscribe_symbol st c k).subs.lookup c =
      some (if k ∈ (st.subs.lookup c).getD []
            then (st.subs.lookup c).getD []
            else (st.subs.lookup c).getD [] ++ [k]) := by
  simp only [subscribe_symbol, subs1_lookup, Option.getD_some]
  by_cases hk : k ∈ (st.subs.lookup c).getD []
  · simp [hk, subs1_lookup]
  · simp [hk, lookup_setAssoc_self]

theorem subscribe_symbol_mem (st : MgrState) (c : ℕ) (k : String) :
    k ∈ ((subscribe_symbol st c k).subs.lookup c).getD [] := by
  rw [subscribe_symbol_lookup]
  by_cases hk : k ∈ (st.subs.lookup c).getD [] <;> simp [hk]

theorem subscribe_symbol_count (st : MgrState) (c : ℕ) (k : String)
    (h : ((st.subs.lookup c).getD []).count k ≤ 1) :
    countKey (subscribe_symbol st c k) c k = 1 := by
  unfold countKey
  rw [subscribe_symbol_lookup, Option.getD_some]
  by_cases hk : k ∈ (st.subs.lookup c).getD []
  · rw [if_pos hk]
    have h1 : 0 < ((st.subs.lookup c).getD []).count k := List.count_pos_iff.mpr hk
    omega
  · rw [if_neg hk, List.count_append]
    rw [List.count_eq_zero.mpr hk]
    simp

theorem subscribe_symbol_idem (st : MgrState) (c : ℕ) (k : String) :
    subscribe_symbol (subscribe_symbol st c k) c k = subscribe_symbol st c k := by
  set s1 := subscribe_symbol st c k with hs1
  have hlk := subscribe_symbol_lookup st c k
  rw [← hs1] at hlk
  have hany : s1.subs.any (fun p => p.1 == c) = true := by
    rw [← lookup_isSome_eq_any, hlk]; rfl
  have hmem : k ∈ (s1.subs.lookup c).getD [] := by
    rw [hs1]; exact subscribe_symbol_mem st c k
  show subscribe_symbol s1 c k = s1
  unfold subscribe_symbol
  rw [if_pos hany]
  rw [if_pos hmem]

theorem unsubscribe_symbol_not_held (st : MgrState) (c : ℕ) (k : String)
    (h : k ∉ (st.subs.lookup c).getD []) :
    unsubscribe_symbol st c k = st := by
  unfold unsubscribe_symbol
  cases hl : st.subs.lookup c with
  | none => rfl
  | some cur =>
      rw [hl] at h
      simp only [Option.getD_some] at h
      simp [h]

theorem sub_unsub_count (st : MgrState) (c : ℕ) (k : String)
    (h : ((st.subs.lookup c).getD []).count k ≤ 1) :
    countKey (unsubscribe_symbol (subscribe_symbol st c k) c k) c k = 0 := by
  set s1 := subscribe_symbol st c k with hs1
  have hlk := subscribe_symbol_lookup st c k
  rw [← hs1] at hlk
  have hcnt : countKey s1 c k = 1 := by rw [hs1]; exact subscribe_symbol_count st c k h
  have hmem : k ∈ (s1.subs.lookup c).getD [] := by
    rw [hs1]; exact subscribe_symbol_mem st c k
  rw [hlk] at hmem
  simp only [Option.getD_some] at hmem
  unfold unsubscribe_symbol
  rw [hlk]
  simp only [hmem, if_true]
  unfold countKey
  simp only [lookup_setAssoc_self, Option.getD_some]
  rw [List.count_erase_self]
  unfold countKey at hcnt
  rw [hlk] at hcnt
  simp only [Option.getD_some] at hcnt
  omega

/-- C9: per `(consumer, symbol key)` pair, `subscribe_symbol` and
`unsubscribe_symbol` are idempotent: starting from a registry in which
the consumer does not hold the key, subscribing twice is the same as
subscribing once and leaves exactly one entry for the pair; subscribing
and then unsubscribing leaves zero entries; and unsubscribing a key the
consumer does not hold returns the registry unchanged. -/
theorem c9_subscription_idempotent (st : MgrState) (c : ℕ) (k : String)
    (h : k ∉ (st.subs.lookup c).getD []) :
    subscribe_symbol (subscribe_symbol st c k) c k = subscribe_symbol st c k
      ∧ countKey (subscribe_symbol st c k) c k = 1
      ∧ countKey (subscribe_symbol (subscribe_symbol st c k) c k) c k = 1
      ∧ countKey (unsubscribe_symbol (subscribe_symbol st c k) c k) c k = 0
      ∧ unsubscribe_symbol st c k = st := by
  have hcount : ((st.subs.lookup c).getD []).count k ≤ 1 := by
    rw [List.count_eq_zero.mpr h]
    omega
  refine ⟨subscribe_symbol_idem st c k, subscribe_symbol_count st c k hcount, ?_,
    sub_unsub_count st c k hcount, unsubscribe_symbol_not_held st c k h⟩
  rw [subscribe_symbol_idem st c k]
  exact subscribe_symbol_count st c k hcount

/-- C9 (witness): a concrete registry — consumer 1 holding `NSE_TCS` —
subscribed twice to `NSE_RELIANCE`, then unsubscribed. -/
theorem c9_subscription_idempotent_witness :
    subscribe_symbol (subscribe_symbol ⟨[1], [(1, ["NSE_TCS"])], [], []⟩ 1 "NSE_RELIANCE")
        1 "NSE_RELIANCE"
      = subscribe_symbol ⟨[1], [(1, ["NSE_TCS"])], [], []⟩ 1 "NSE_RELIANCE"
      ∧ countKey (subscribe_symbol ⟨[1], [(1, ["NSE_TCS"])], [], []⟩ 1 "NSE_RELIANCE")
          1 "NSE_RELIANCE" = 1
      ∧ countKey (subscribe_symbol (subscribe_symbol ⟨[1], [(1, ["NSE_TCS"])], [], []⟩
          1 "NSE_RELIANCE") 1 "NSE_RELIANCE") 1 "NSE_RELIANCE" = 1
      ∧ countKey (unsubscribe_symbol (subscribe_symbol ⟨[1], [(1, ["NSE_TCS"])], [], []⟩
          1 "NSE_RELIANCE") 1 "NSE_RELIANCE") 1 "NSE_RELIANCE" = 0
      ∧ unsubscribe_symbol ⟨[1], [(1, ["NSE_TCS"])], [], []⟩ 1 "NSE_RELIANCE"
          = ⟨[1], [(1, ["NSE_TCS"])], [], []⟩ :=
  c9_subscription_idempotent ⟨[1], [(1, ["NSE_TCS"])], [], []⟩ 1 "NSE_RELIANCE" (by decide)

/-! ### C6: delivery failures during a dissemination pass -/

theorem disconnect_subs_keys (st : MgrState) (c : ℕ) :
    ∀ p ∈ (disconnect st c).subs, p.1 ≠ c := by
  intro p hp
  have := (List.mem_filter.mp hp).2
  simpa [bne_iff_ne] using this

theorem foldl_disconnect_pres (l : List ℕ) (st : MgrState) (c : ℕ)
    (h1 : c ∉ st.active) (h2 : ∀ p ∈ st.subs, p.1 ≠ c) :
    c ∉ (l.foldl disconnect st).active
      ∧ ∀ p ∈ (l.foldl disconnect st).subs, p.1 ≠ c := by
  induction l generalizing st with
  | nil => exact ⟨h1, h2⟩
  | cons d l ih =>
      refine ih (disconnect st d) ?_ ?_
      · exact fun hc => h1 (List.mem_of_mem_erase hc)
      · exact fun p hp => h2 p (List.mem_of_mem_filter hp)

theorem foldl_disconnect_removes (l : List ℕ) (st : MgrState) (c : ℕ)
    (hnd : st.active.Nodup) (hc : c ∈ l) :
    c ∉ (l.foldl disconnect st).active
      ∧ ∀ p ∈ (l.foldl disconnect st).subs, p.1 ≠ c := by
  induction l generalizing st with
  | nil => simp at hc
  | cons d l ih =>
      rw [List.foldl_cons]
      rcases List.mem_cons.mp hc with rfl | hcl
      · refine foldl_disconnect_pres l (disconnect st c) c ?_ (disconnect_subs_keys st c)
        intro hmem
        exact ((hnd.mem_erase_iff.mp hmem).1) rfl
      · exact ih (disconnect st d) (hnd.erase d) hcl

theorem broadcast_delivers (st : MgrState) (fails : List ℕ) (msg : String)
    (k : String) (c : ℕ) (hc : c ∈ st.active)
    (hk : k ∈ (st.subs.lookup c).getD []) (hf : c ∉ fails) :
    (c, msg) ∈ (broadcast st fails msg (some k)).2 := by
  unfold broadcast
  refine List.mem_map.mpr ⟨c, ?_, rfl⟩
  refine List.mem_filter.mpr ⟨List.mem_filter.mpr ⟨hc, ?_⟩, ?_⟩
  · exact List.elem_eq_true_of_mem hk
  · simp [List.elem_iff, hf]

theorem broadcast_removes_failed (st : MgrState) (fails : List ℕ) (msg : String)
    (k : String) (c : ℕ) (hnd : st.active.Nodup) (hc : c ∈ st.active)
    (hk : k ∈ (st.subs.lookup c).getD []) (hf : c ∈ fails) :
    c ∉ (broadcast st fails msg (some k)).1.active
      ∧ ∀ p ∈ (broadcast st fails msg (some k)).1.subs, p.1 ≠ c := by
  unfold broadcast
  refine foldl_disconnect_removes _ st c hnd ?_
  refine List.mem_filter.mpr ⟨List.mem_filter.mpr ⟨hc, ?_⟩, ?_⟩
  · exact List.elem_eq_true_of_mem hk
  · simp [List.elem_iff, hf]

theorem pushOne_registry (t : ℚ) (fails : List ℕ) (st : MgrState) (k : String)
    (v : Streamer.PriceDict) :
    (pushOne t fails st k v).1.active = st.active
      ∧ (pushOne t fails st k v).1.subs = st.subs
      ∧ (pushOne t fails st k v).1.latest = st.latest := by
  unfold pushOne
  split
  · split <;> exact ⟨rfl, rfl, rfl⟩
  · exact ⟨rfl, rfl, rfl⟩

theorem pushItems_registry (t : ℚ) (fails : List ℕ)
    (items : List (String × Streamer.PriceDict)) :
    ∀ st : MgrState, (pushItems t fails items st).1.active = st.active
      ∧ (pushItems t fails items st).1.subs = st.subs
      ∧ (pushItems t fails items st).1.latest = st.latest := by
  induction items with
  | nil => exact fun st => ⟨rfl, rfl, rfl⟩
  | cons kv items ih =>
      intro st
      obtain ⟨k, v⟩ := kv
      obtain ⟨h1, h2, h3⟩ := pushOne_registry t fails st k v
      obtain ⟨g1, g2, g3⟩ := ih (pushOne t fails st k v).1
      exact ⟨by simpa [pushItems, h1] using g1, by simpa [pushItems, h2] using g2,
        by simpa [pushItems, h3] using g3⟩

theorem pushOne_deliveries (t : ℚ) (fails : List ℕ) (st : MgrState)
    (k0 : String) (v0 : Streamer.PriceDict) (c : ℕ) (k : String)
    (v : Streamer.PriceDict) (h : (c, k, v) ∈ (pushOne t fails st k0 v0).2) :
    k = k0 ∧ v = v0 ∧ c ∈ st.active ∧ k0 ∈ (st.subs.lookup c).getD []
      ∧ c ∉ fails ∧ t - lastSentD st k0 ≥ 1 / 2 := by
  unfold pushOne at h
  split at h
  · next hdue =>
      rcases List.mem_map.mp h with ⟨c', hc', heq⟩
      obtain ⟨rfl, rfl, rfl⟩ : c' = c ∧ k = k0 ∧ v = v0 := by
        refine ⟨congrArg Prod.fst heq, ?_, ?_⟩
        · exact (congrArg (fun p => p.2.1) heq).symm
        · exact (congrArg (fun p => p.2.2) heq).symm
      unfold sentFor at hc'
      have hmem := List.mem_filter.mp hc'
      have hand := hmem.2
      rw [Bool.and_eq_true] at hand
      refine ⟨rfl, rfl, hmem.1, ?_, ?_, hdue⟩
      · simpa [List.elem_iff] using hand.1
      · have := hand.2
        simpa [List.elem_iff] using this
  · simp at h

theorem pushOne_lastSentD_mono (t : ℚ) (fails : List ℕ) (st : MgrState)
    (k0 : String) (v0 : Streamer.PriceDict) (k : String) :
    lastSentD st k ≤ lastSentD (pushOne t fails st k0 v0).1 k := by
  unfold pushOne
  split
  · next hdue =>
      split
      · exact le_refl _
      · by_cases hk : k = k0
        · subst hk
          have hd : t - lastSentD st k ≥ 1 / 2 := hdue
          simp only [lastSentD] at hd
          simp only [lastSentD, lookup_setAssoc_self, Option.getD_some]
          linarith
        · simp only [lastSentD, lookup_setAssoc_ne st.lastSent k0 k t hk]
          exact le_refl _
  · exact le_refl _

theorem pushItems_deliveries (t : ℚ) (fails : List ℕ)
    (items : List (String × Streamer.PriceDict)) :
    ∀ (st : MgrState) (c : ℕ) (k : String) (v : Streamer.PriceDict),
    (c, k, v) ∈ (pushItems t fails items st).2 →
      (k, v) ∈ items ∧ c ∈ st.active ∧ k ∈ (st.subs.lookup c).getD [] ∧ c ∉ fails
        ∧ t - lastSentD st k ≥ 1 / 2 := by
  induction items with
  | nil => intro st c k v h; simp [pushItems] at h
  | cons kv items ih =>
      intro st c k v h
      obtain ⟨k0, v0⟩ := kv
      rw [show pushItems t fails ((k0, v0) :: items) st =
        ((pushItems t fails items (pushOne t fails st k0 v0).1).1,
         (pushOne t fails st k0 v0).2 ++
           (pushItems t fails items (pushOne t fails st k0 v0).1).2) from rfl] at h
      rcases List.mem_append.mp h with h1 | h2
      · obtain ⟨rfl, rfl, hc, hk, hf, hdue⟩ := pushOne_deliveries t fails st k0 v0 c k v h1
        exact ⟨by simp, hc, hk, hf, hdue⟩
      · obtain ⟨hin, hc, hk, hf, hdue⟩ := ih (pushOne t fails st k0 v0).1 c k v h2
        obtain ⟨h1, h2', h3⟩ := pushOne_registry t fails st k0 v0
        refine ⟨by simp [hin], by rwa [h1] at hc, by rwa [h2'] at hk, hf, ?_⟩
        have hmono := pushOne_lastSentD_mono t fails st k0 v0 k
        linarith

theorem pushItems_lastSentD_mono (t : ℚ) (fails : List ℕ)
    (items : List (String × Streamer.PriceDict)) :
    ∀ (st : MgrState) (k : String),
      lastSentD st k ≤ lastSentD (pushItems t fails items st).1 k := by
  induction items with
  | nil => exact fun st k => le_refl _
  | cons kv items ih =>
      intro st k
      obtain ⟨k0, v0⟩ := kv
      exact le_trans (pushOne_lastSentD_mono t fails st k0 v0 k)
        (ih (pushOne t fails st k0 v0).1 k)

theorem pushOne_skip_of_stamped (t : ℚ) (fails : List ℕ) (st : MgrState)
    (k0 : String) (v0 : Streamer.PriceDict) (k : String)
    (h : st.lastSent.lookup k = some t) :
    (pushOne t fails st k0 v0).1.lastSent.lookup k = some t := by
  unfold pushOne
  by_cases hk : k = k0
  · subst hk
    have hls : lastSentD st k = t := by simp [lastSentD, h]
    rw [if_neg]
    · exact h
    · rw [hls]
      norm_num
  · split
    · split
      · exact h
      · simpa [lookup_setAssoc_ne st.lastSent k0 k t hk] using h
    · exact h

theorem pushItems_lastSent_stays (t : ℚ) (fails : List ℕ)
    (items : List (String × Streamer.PriceDict)) :
    ∀ (st : MgrState) (k : String), st.lastSent.lookup k = some t →
      (pushItems t fails items st).1.lastSent.lookup k = some t := by
  induction items with
  | nil => exact fun st k h => h
  | cons kv items ih =>
      intro st k h
      obtain ⟨k0, v0⟩ := kv
      exact ih (pushOne t fails st k0 v0).1 k
        (pushOne_skip_of_stamped t fails st k0 v0 k h)

theorem pushOne_delivery_stamp (t : ℚ) (fails : List ℕ) (st : MgrState)
    (k0 : String) (v0 : Streamer.PriceDict) (c : ℕ) (k : String)
    (v : Streamer.PriceDict) (h : (c, k, v) ∈ (pushOne t fails st k0 v0).2) :
    (pushOne t fails st k0 v0).1.lastSent.lookup k = some t := by
  obtain ⟨rfl, -, -, -, -, -⟩ := pushOne_deliveries t fails st k0 v0 c k v h
  unfold pushOne at h ⊢
  split at h
  · next hdue =>
      rw [if_pos hdue]
      have hne : ¬ (sentFor fails st k).isEmpty = true := by
        intro he
        rw [List.isEmpty_iff.mp he] at h
        simp at h
      rw [if_neg hne]
      exact lookup_setAssoc_self st.lastSent k t
  · simp at h

theorem pushItems_delivery_stamp (t : ℚ) (fails : List ℕ)
    (items : List (String × Streamer.PriceDict)) :
    ∀ (st : MgrState) (c : ℕ) (k : String) (v : Streamer.PriceDict),
      (c, k, v) ∈ (pushItems t fails items st).2 →
      (pushItems t fails items st).1.lastSent.lookup k = some t := by
  induction items with
  | nil => intro st c k v h; simp [pushItems] at h
  | cons kv items ih =>
      intro st c k v h
      obtain ⟨k0, v0⟩ := kv
      rcases List.mem_append.mp h with h1 | h2
      · exact pushItems_lastSent_stays t fails items (pushOne t fails st k0 v0).1 k
          (pushOne_delivery_stamp t fails st k0 v0 c k v h1)
      · exact ih (pushOne t fails st k0 v0).1 c k v h2

theorem any_delivery_exists (ds : List (ℕ × String × Streamer.PriceDict))
    (c : ℕ) (k : String)
    (h : ds.any (fun d => d.1 == c && d.2.1 == k) = true) :
    ∃ v, (c, k, v) ∈ ds := by
  rcases List.any_eq_true.mp h with ⟨d, hd, hdp⟩
  rw [Bool.and_eq_true] at hdp
  obtain ⟨dc, dk, dv⟩ := d
  obtain ⟨h1, h2⟩ := hdp
  have hc : dc = c := by simpa using h1
  have hk : dk = k := by simpa using h2
  subst hc; subst hk
  exact ⟨dv, hd⟩

theorem deliveryTimes_cons (st : MgrState) (t : ℚ) (fails : List ℕ)
    (rest : List (ℚ × List ℕ)) (c : ℕ) (k : String) :
    deliveryTimes st ((t, fails) :: rest) c k =
      if (push_latest_prices t fails st).2.any (fun d => d.1 == c && d.2.1 == k)
      then t :: deliveryTimes (push_latest_prices t fails st).1 rest c k
      else deliveryTimes (push_latest_prices t fails st).1 rest c k := by
  by_cases hany : (push_latest_prices t fails st).2.any
      (fun d => d.1 == c && d.2.1 == k) = true
  · simp only [deliveryTimes, runPasses, List.filterMap_cons]
    simp [hany]
  · simp only [deliveryTimes, runPasses, List.filterMap_cons]
    simp [hany]

theorem deliveryTimes_lower (passes : List (ℚ × List ℕ)) :
    ∀ (st : MgrState) (c : ℕ) (k : String) (tv : ℚ),
      tv ∈ deliveryTimes st passes c k → lastSentD st k + 1 / 2 ≤ tv := by
  induction passes with
  | nil => intro st c k tv h; simp [deliveryTimes, runPasses] at h
  | cons p rest ih =>
      obtain ⟨t, fails⟩ := p
      intro st c k tv h
      rw [deliveryTimes_cons] at h
      by_cases hany : (push_latest_prices t fails st).2.any
          (fun d => d.1 == c && d.2.1 == k) = true
      · rw [if_pos hany] at h
        obtain ⟨v, hv⟩ := any_delivery_exists _ c k hany
        have hdue := (pushItems_deliveries t fails st.latest st c k v hv).2.2.2.2
        rcases List.mem_cons.mp h with rfl | htail
        · linarith
        · have hih := ih (push_latest_prices t fails st).1 c k tv htail
          have hstamp := pushItems_delivery_stamp t fails st.latest st c k v hv
          have hls : lastSentD (push_latest_prices t fails st).1 k = t := by
            simp [lastSentD]
            rw [show (push_latest_prices t fails st).1.lastSent
              = (pushItems t fails st.latest st).1.lastSent from rfl, hstamp]
            rfl
          rw [hls] at hih
          linarith
      · rw [if_neg hany] at h
        have hih := ih (push_latest_prices t fails st).1 c k tv h
        have hmono := pushItems_lastSentD_mono t fails st.latest st k
        have : lastSentD st k ≤ lastSentD (push_latest_prices t fails st).1 k := hmono
        linarith

theorem deliveryTimes_pairwise (passes : List (ℚ × List ℕ)) :
    ∀ (st : MgrState) (c : ℕ) (k : String),
      List.Pairwise (fun a b => a + 1 / 2 ≤ b) (deliveryTimes st passes c k) := by
  induction passes with
  | nil => intro st c k; simp [deliveryTimes, runPasses]
  | cons p rest ih =>
      obtain ⟨t, fails⟩ := p
      intro st c k
      rw [deliveryTimes_cons]
      by_cases hany : (push_latest_prices t fails st).2.any
          (fun d => d.1 == c && d.2.1 == k) = true
      · rw [if_pos hany]
        refine List.Pairwise.cons ?_ (ih (push_latest_prices t fails st).1 c k)
        intro tv htv
        obtain ⟨v, hv⟩ := any_delivery_exists _ c k hany
        have hstamp := pushItems_delivery_stamp t fails st.latest st c k v hv
        have hls : lastSentD (push_latest_prices t fails st).1 k = t := by
          simp [lastSentD]
          rw [show (push_latest_prices t fails st).1.lastSent
            = (pushItems t fails st.latest st).1.lastSent from rfl, hstamp]
          rfl
        have := deliveryTimes_lower rest (push_latest_prices t fails st).1 c k tv htv
        rw [hls] at this
        linarith
      · rw [if_neg hany]
        exact ih (push_latest_prices t fails st).1 c k

/-- C4 (amended): the per-key 500 ms fanout cap holds for the
`push_latest_prices` dissemination path (only): every delivery of a pass
goes to an active consumer subscribed to the key, with no failing send,
carries exactly the cached latest message for the key, and happens only
when at least 0.5 s have elapsed since the key was last sent; over any
sequence of passes, the times at which one consumer receives the same
key are pairwise at least 0.5 s apart — at most one delivered message
per key per 500 ms window on this path.  (The per-tick
`_broadcast_update`/`broadcast` path is *not* capped; see the
counterexample.) -/
theorem c4_push_rate_cap (t : ℚ) (fails : List ℕ) (st : MgrState) (c : ℕ)
    (k : String) (v : Streamer.PriceDict)
    (hmem : (c, k, v) ∈ (push_latest_prices t fails st).2) :
    ((k, v) ∈ st.latest ∧ c ∈ st.active ∧ k ∈ (st.subs.lookup c).getD []
        ∧ c ∉ fails ∧ t - lastSentD st k ≥ 1 / 2)
      ∧ ∀ (st0 : MgrState) (passes : List (ℚ × List ℕ)),
          List.Pairwise (fun a b => a + 1 / 2 ≤ b) (deliveryTimes st0 passes c k) := by
  refine ⟨?_, fun st0 passes => deliveryTimes_pairwise passes st0 c k⟩
  exact pushItems_deliveries t fails st.latest st c k v hmem

theorem c4_witness_mem : ((1 : ℕ), "K", Streamer.buildPriceDict 0 []) ∈
    (push_latest_prices 1 []
      ⟨[1], [(1, ["K"])], [("K", Streamer.buildPriceDict 0 [])], []⟩).2 := by
  norm_num [push_latest_prices, pushItems, pushOne, sentFor, lastSentD,
    lookup_nil_eqn, lookup_cons_eqn, beq_iff_eq, List.filter_cons]

/-- C4 (witness): one consumer subscribed to `"K"` with a cached entry
and no recent send receives the cached message in a pass at `t = 1`. -/
theorem c4_push_rate_cap_witness :
    ("K", Streamer.buildPriceDict 0 [])
        ∈ (⟨[1], [(1, ["K"])], [("K", Streamer.buildPriceDict 0 [])], []⟩ : MgrState).latest
      ∧ (1 : ℕ) ∈ (⟨[1], [(1, ["K"])], [("K", Streamer.buildPriceDict 0 [])], []⟩ :
          MgrState).active
      ∧ "K" ∈ ((⟨[1], [(1, ["K"])], [("K", Streamer.buildPriceDict 0 [])], []⟩ :
          MgrState).subs.lookup 1).getD []
      ∧ (1 : ℕ) ∉ ([] : List ℕ)
      ∧ (1 : ℚ) - lastSentD ⟨[1], [(1, ["K"])], [("K", Streamer.buildPriceDict 0 [])], []⟩
          "K" ≥ 1 / 2 :=
  (c4_push_rate_cap 1 [] ⟨[1], [(1, ["K"])], [("K", Streamer.buildPriceDict 0 [])], []⟩
    1 "K" (Streamer.buildPriceDict 0 []) c4_witness_mem).1

/-- C4 (counterexample): the 500 ms cap does not hold for the system as
a whole.  Two validated ticks for `RELIANCE.NSE` arriving 0.1 s apart
each produce a `_broadcast_update` task; each task (with a running
event loop) schedules `manager.broadcast` for the key `NSE_RELIANCE`;
and each of those broadcasts delivers a message to the consumer
subscribed to that key — two delivered messages for one key within
0.1 s < 500 ms. -/
theorem c4_fanout_cap_refuted :
    (Streamer.handle_market_data 0 true true (some "NSE_RELIANCE")
        [("lp", PyVal.num 100), ("ft", PyVal.num 1)] Streamer.initState).msgs.length = 1
      ∧ (Streamer.handle_market_data (1 / 10) true true (some "NSE_RELIANCE")
          [("lp", PyVal.num 101), ("ft", PyVal.num 2)]
          (Streamer.handle_market_data 0 true true (some "NSE_RELIANCE")
            [("lp", PyVal.num 100), ("ft", PyVal.num 1)] Streamer.initState).state
          ).msgs.length = 1
      ∧ (Streamer.broadcast_update [] [] true
          ⟨[1], [(1, ["NSE_RELIANCE"])], [], []⟩ (PyVal.str "RELIANCE")
          (PyVal.str "NSE")
          (Streamer.buildPriceDict 0 [("lp", PyVal.num 100), ("ft", PyVal.num 1)])).2.2
          = some "NSE_RELIANCE"
      ∧ (broadcast ⟨[1], [(1, ["NSE_RELIANCE"])], [], []⟩ [] "m1"
          (some "NSE_RELIANCE")).2 = [(1, "m1")]
      ∧ (broadcast (broadcast ⟨[1], [(1, ["NSE_RELIANCE"])], [], []⟩ [] "m1"
          (some "NSE_RELIANCE")).1 [] "m2" (some "NSE_RELIANCE")).2 = [(1, "m2")]
      ∧ (1 : ℚ) / 10 - 0 < 1 / 2 := by
  refine ⟨?_, ?_, ?_, ?_, ?_, by norm_num⟩ <;> decide

/-- C6 (amended): during `WebSocketManager.broadcast`, a send failure
removes exactly the failing consumers (from `active_connections` and
`subscriptions`, via `disconnect`) and never prevents delivery to any
other targeted consumer; during `push_latest_prices` (the periodic
dissemination pass), a send failure is only logged — delivery to the
other subscribed consumers still happens, but the failing consumer is
*not* removed from the registry (the registry is left unchanged by the
pass). -/
theorem c6_delivery_failure (st : MgrState) (fails : List ℕ) (msg : String)
    (k : String) (c : ℕ) (hc : c ∈ st.active)
    (hk : k ∈ (st.subs.lookup c).getD []) :
    (c ∉ fails → (c, msg) ∈ (broadcast st fails msg (some k)).2)
      ∧ (st.active.Nodup → c ∈ fails →
          c ∉ (broadcast st fails msg (some k)).1.active
            ∧ ∀ p ∈ (broadcast st fails msg (some k)).1.subs, p.1 ≠ c)
      ∧ (∀ t : ℚ, (push_latest_prices t fails st).1.active = st.active
            ∧ (push_latest_prices t fails st).1.subs = st.subs)
      ∧ (∀ (t : ℚ) (c2 : ℕ) (v : Streamer.PriceDict),
          (c2, k, v) ∈ (push_latest_prices t fails st).2 → c2 ∉ fails) := by
  refine ⟨fun hf => broadcast_delivers st fails msg k c hc hk hf,
    fun hnd hf => broadcast_removes_failed st fails msg k c hnd hc hk hf,
    fun t => ?_, fun t c2 v hmem => ?_⟩
  · obtain ⟨h1, h2, -⟩ := pushItems_registry t fails st.latest st
    exact ⟨h1, h2⟩
  · exact (pushItems_deliveries t fails st.latest st c2 k v hmem).2.2.2.1

/-- C6 (witness): two consumers subscribed to `"K"`; consumer 1's send
fails, consumer 2's succeeds. -/
theorem c6_delivery_failure_witness :
    ((2 : ℕ) ∉ ([1] : List ℕ) →
        ((2 : ℕ), "m") ∈ (broadcast ⟨[1, 2], [(1, ["K"]), (2, ["K"])],
          [("K", Streamer.buildPriceDict 0 [])], []⟩ [1] "m" (some "K")).2)
      ∧ (([1, 2] : List ℕ).Nodup → (2 : ℕ) ∈ ([1] : List ℕ) →
          (2 : ℕ) ∉ (broadcast ⟨[1, 2], [(1, ["K"]), (2, ["K"])],
              [("K", Streamer.buildPriceDict 0 [])], []⟩ [1] "m" (some "K")).1.active
            ∧ ∀ p ∈ (broadcast ⟨[1, 2], [(1, ["K"]), (2, ["K"])],
                [("K", Streamer.buildPriceDict 0 [])], []⟩ [1] "m" (some "K")).1.subs,
                p.1 ≠ 2)
      ∧ (∀ t : ℚ, (push_latest_prices t [1] ⟨[1, 2], [(1, ["K"]), (2, ["K"])],
              [("K", Streamer.buildPriceDict 0 [])], []⟩).1.active = [1, 2]
            ∧ (push_latest_prices t [1] ⟨[1, 2], [(1, ["K"]), (2, ["K"])],
                [("K", Streamer.buildPriceDict 0 [])], []⟩).1.subs
                = [(1, ["K"]), (2, ["K"])])
      ∧ (∀ (t : ℚ) (c2 : ℕ) (v : Streamer.PriceDict),
          (c2, "K", v) ∈ (push_latest_prices t [1] ⟨[1, 2], [(1, ["K"]), (2, ["K"])],
            [("K", Streamer.buildPriceDict 0 [])], []⟩).2 → c2 ∉ [1]) :=
  c6_delivery_failure ⟨[1, 2], [(1, ["K"]), (2, ["K"])],
    [("K", Streamer.buildPriceDict 0 [])], []⟩ [1] "m" "K" 2 (by decide) (by decide)

/-- C6 (counterexample): in `push_latest_prices` the failing consumer is
*not* removed from the registry: consumer 1's send fails during the
pass, consumer 2 still receives the message, and consumer 1 stays in
`active_connections` and `subscriptions` — unlike `disconnect`, which
would have removed it. -/
theorem c6_push_failure_not_removed :
    (push_latest_prices 1 [1] ⟨[1, 2], [(1, ["K"]), (2, ["K"])],
        [("K", Streamer.buildPriceDict 0 [])], []⟩).2
        = [(2, "K", Streamer.buildPriceDict 0 [])]
      ∧ (push_latest_prices 1 [1] ⟨[1, 2], [(1, ["K"]), (2, ["K"])],
          [("K", Streamer.buildPriceDict 0 [])], []⟩).1.active = [1, 2]
      ∧ (push_latest_prices 1 [1] ⟨[1, 2], [(1, ["K"]), (2, ["K"])],
          [("K", Streamer.buildPriceDict 0 [])], []⟩).1.subs
          = [(1, ["K"]), (2, ["K"])]
      ∧ (disconnect ⟨[1, 2], [(1, ["K"]), (2, ["K"])],
          [("K", Streamer.buildPriceDict 0 [])], []⟩ 1).active = [2]
      ∧ (disconnect ⟨[1, 2], [(1, ["K"]), (2, ["K"])],
          [("K", Streamer.buildPriceDict 0 [])], []⟩ 1).subs = [(2, ["K"])] := by
  refine ⟨?_, ?_, ?_, ?_, ?_⟩ <;>
    norm_num [push_latest_prices, pushItems, pushOne, sentFor, lastSentD, setAssoc,
      disconnect, lookup_cons_eqn, lookup_nil_eqn, beq_iff_eq, List.filter_cons]

end Api

/-! ### C2, C5, C7, C10: the ingest callback -/

namespace Streamer

theorem ltpCheck_nonpos (q : ℚ) (hq : q ≤ 0) : ltpCheck (PyVal.num q) = .ok true := by
  unfold ltpCheck
  by_cases hq0 : q = 0
  · subst hq0
    simp [pyTruthy]
  · simp [pyTruthy, hq0, hq]

theorem ltpCheck_pos (q : ℚ) (hq : 0 < q) : ltpCheck (PyVal.num q) = .ok false := by
  unfold ltpCheck
  have hq0 : q ≠ 0 := ne_of_gt hq
  simp [pyTruthy, hq0, not_le.mpr hq]

/-- C2: a raw feed event whose resolved last price is not strictly
positive changes no `prices` row and no `real_time_ticks` row (no
`upsert_price` call is made), does not touch the per-key rate-limit
bookkeeping, and is not forwarded to the fanout broadcaster: the tick is
dropped before any store write or fanout. -/
theorem c2_nonpositive_price_rejected (now : ℚ) (dbOk loopOk : Bool)
    (topic : Option String) (data : List (String × PyVal)) (st : StreamState)
    (q : ℚ) (hltp : (buildPriceDict (now * 1000) data).ltp = PyVal.num q)
    (hq : q ≤ 0) :
    (handle_market_data now dbOk loopOk topic data st).state.writes = st.writes
      ∧ (handle_market_data now dbOk loopOk topic data st).state.lastDbUpdate
          = st.lastDbUpdate
      ∧ (handle_market_data now dbOk loopOk topic data st).state.dbUpdates
          = st.dbUpdates
      ∧ (handle_market_data now dbOk loopOk topic data st).msgs = [] := by
  unfold handle_market_data handleBody
  rcases hres : resolveSymEx topic data with e | ⟨sv, ev⟩
  · simp [hres]
  · by_cases htr : (!pyTruthy sv || !pyTruthy ev) = true
    · simp [hres, htr]
    · simp [hres, htr, hltp, ltpCheck_nonpos q hq]

/-- C2 (witness): a tick for `RELIANCE.NSE` with `lp = -5`. -/
theorem c2_nonpositive_price_rejected_witness :
    (handle_market_data 0 true true (some "NSE_RELIANCE")
        [("lp", PyVal.num (-5)), ("ft", PyVal.num 1)] initState).state.writes
        = initState.writes
      ∧ (handle_market_data 0 true true (some "NSE_RELIANCE")
          [("lp", PyVal.num (-5)), ("ft", PyVal.num 1)] initState).state.lastDbUpdate
          = initState.lastDbUpdate
      ∧ (handle_market_data 0 true true (some "NSE_RELIANCE")
          [("lp", PyVal.num (-5)), ("ft", PyVal.num 1)] initState).state.dbUpdates
          = initState.dbUpdates
      ∧ (handle_market_data 0 true true (some "NSE_RELIANCE")
          [("lp", PyVal.num (-5)), ("ft", PyVal.num 1)] initState).msgs = [] :=
  c2_nonpositive_price_rejected 0 true true (some "NSE_RELIANCE")
    [("lp", PyVal.num (-5)), ("ft", PyVal.num 1)] initState (-5) (by decide) (by decide)

/-- C7: every validated tick (resolved truthy symbol and exchange,
strictly positive resolved last price) is handed to the fanout
broadcaster — the `_broadcast_update` task is created with exactly the
tick's payload — for *every* value of `dbOk` (a store-write failure does
not halt forwarding) and for every rate-limit state in
`st.lastDbUpdate` (a tick inside the 1 s window is forwarded even
though it is not persisted), and the callback returns normally. -/
theorem c7_validated_tick_forwarded (now : ℚ) (dbOk : Bool)
    (topic : Option String) (data : List (String × PyVal)) (st : StreamState)
    (sv ev : PyVal) (q : ℚ)
    (hres : resolveSymEx topic data = .ok (sv, ev))
    (hsv : pyTruthy sv = true) (hev : pyTruthy ev = true)
    (hltp : (buildPriceDict (now * 1000) data).ltp = PyVal.num q) (hq : 0 < q) :
    (handle_market_data now dbOk true topic data st).msgs
        = [(sv, ev, buildPriceDict (now * 1000) data)]
      ∧ (handle_market_data now dbOk true topic data st).raised = Option.none := by
  unfold handle_market_data handleBody
  simp [hres, hsv, hev, hltp, ltpCheck_pos q hq]

/-- C7 (witness): a tick for `RELIANCE.NSE` forwarded although the
store write fails (`dbOk = false`). -/
theorem c7_validated_tick_forwarded_witness :
    (handle_market_data 0 false true (some "NSE_RELIANCE")
        [("lp", PyVal.num 100), ("ft", PyVal.num 1)] initState).msgs
        = [(PyVal.str "RELIANCE", PyVal.str "NSE",
            buildPriceDict (0 * 1000) [("lp", PyVal.num 100), ("ft", PyVal.num 1)])]
      ∧ (handle_market_data 0 false true (some "NSE_RELIANCE")
          [("lp", PyVal.num 100), ("ft", PyVal.num 1)] initState).raised
          = Option.none :=
  c7_validated_tick_forwarded 0 false (some "NSE_RELIANCE")
    [("lp", PyVal.num 100), ("ft", PyVal.num 1)] initState
    (PyVal.str "RELIANCE") (PyVal.str "NSE") 100 rfl (by decide) (by decide)
    (by decide) (by decide)

/-- C10: the feed-source callback `_handle_market_data` always returns
normally — its whole body runs inside `try`, and `except Exception`
swallows every error (malformed field values such as a numeric `tk`
raising `AttributeError` in `.isdigit()`, a string price raising
`TypeError` in the comparison with 0, a missing event loop raising
`RuntimeError` in `asyncio.create_task`) — so a bad feed event is at
worst dropped (no broadcast, and for a pre-validation error no store
write) and no exception ever propagates to the feed-source callback
thread. -/
theorem c10_callback_never_raises :
    (∀ (now : ℚ) (dbOk loopOk : Bool) (topic : Option String)
        (data : List (String × PyVal)) (st : StreamState),
        (handle_market_data now dbOk loopOk topic data st).raised = Option.none)
      ∧ (handle_market_data 0 true true Option.none
          [("tk", PyVal.num 2885), ("e", PyVal.str "NSE"), ("lp", PyVal.num 100),
            ("ft", PyVal.num 1)] initState).msgs = []
      ∧ (handle_market_data 0 true true Option.none
          [("tk", PyVal.num 2885), ("e", PyVal.str "NSE"), ("lp", PyVal.num 100),
            ("ft", PyVal.num 1)] initState).state.writes = []
      ∧ (handle_market_data 0 true false (some "NSE_RELIANCE")
          [("lp", PyVal.num 100), ("ft", PyVal.num 1)] initState).raised
          = Option.none
      ∧ (handle_market_data 0 true false (some "NSE_RELIANCE")
          [("lp", PyVal.num 100), ("ft", PyVal.num 1)] initState).msgs = [] := by
  refine ⟨fun now dbOk loopOk topic data st => ?_, by decide, by decide, by decide,
    by decide⟩
  unfold handle_market_data
  split <;> rfl

/-- C5 (counterexample): a bare numeric token is accepted without a
successful resolution.  Via the topic `"NSE_2885"` the token `2885` is
accepted with *no* resolution attempt at all (the token-mapping block
only runs in the in-message fallback); via the in-message fields
(`tk = "2885"`, `e = "NSE"`) the resolution is attempted but the call
`get_br_symbol(symbol)` raises `TypeError` (the function requires two
arguments), the error is caught and logged at debug level, and the tick
is still accepted — store write and fanout both happen under the
unresolved numeric token `"2885"`. -/
theorem c5_numeric_token_claim_refuted :
    (handle_market_data 0 true true (some "NSE_2885")
        [("lp", PyVal.num 100), ("ft", PyVal.num 1)] initState).msgs
        = [(PyVal.str "2885", PyVal.str "NSE",
            buildPriceDict (0 * 1000) [("lp", PyVal.num 100), ("ft", PyVal.num 1)])]
      ∧ (handle_market_data 0 true true (some "NSE_2885")
          [("lp", PyVal.num 100), ("ft", PyVal.num 1)] initState).state.writes
          = [(PyVal.str "2885", PyVal.str "NSE",
              buildPriceDict (0 * 1000) [("lp", PyVal.num 100), ("ft", PyVal.num 1)])]
      ∧ (handle_market_data 0 true true Option.none
          [("tk", PyVal.str "2885"), ("e", PyVal.str "NSE"), ("lp", PyVal.num 100),
            ("ft", PyVal.num 1)] initState).msgs
          = [(PyVal.str "2885", PyVal.str "NSE",
              buildPriceDict (0 * 1000) [("tk", PyVal.str "2885"),
                ("e", PyVal.str "NSE"), ("lp", PyVal.num 100), ("ft", PyVal.num 1)])]
      ∧ (handle_market_data 0 true true Option.none
          [("tk", PyVal.str "2885"), ("e", PyVal.str "NSE"), ("lp", PyVal.num 100),
            ("ft", PyVal.num 1)] initState).state.writes
          = [(PyVal.str "2885", PyVal.str "NSE",
              buildPriceDict (0 * 1000) [("tk", PyVal.str "2885"),
                ("e", PyVal.str "NSE"), ("lp", PyVal.num 100), ("ft", PyVal.num 1)])] := by
  refine ⟨?_, ?_, ?_, ?_⟩ <;> decide

/-- C5 (amended): a tick is dropped — with a logged warning — exactly
when no truthy symbol or no truthy exchange could be determined; a bare
numeric token arriving via the in-message fields triggers a resolution
attempt that always fails (the `get_br_symbol(symbol)` call has the
wrong arity and raises; the error is caught at debug level), after
which the tick is accepted under the unresolved numeric token whenever
an exchange is present; and even the intended two-argument lookup,
keyed by `(symbol, exchange)`, misses for a bare token and falls back
to returning the input symbol rather than failing. -/
theorem c5_numeric_token_behavior :
    (∀ (now : ℚ) (dbOk loopOk : Bool) (topic : Option String)
        (data : List (String × PyVal)) (st : StreamState) (sv ev : PyVal),
        resolveSymEx topic data = .ok (sv, ev) →
        (pyTruthy sv = false ∨ pyTruthy ev = false) →
        (handle_market_data now dbOk loopOk topic data st).msgs = []
          ∧ (handle_market_data now dbOk loopOk topic data st).state.writes = st.writes
          ∧ (handle_market_data now dbOk loopOk topic data st).state.warnLogs
              = st.warnLogs + 1)
      ∧ (∀ (tok exch : String) (q : ℚ), tok ≠ "" →
          tok.data.all (·.isDigit) = true → exch ≠ "" → 0 < q →
          ∀ (dbOk : Bool) (now : ℚ),
          (handle_market_data now dbOk true Option.none
            [("tk", PyVal.str tok), ("e", PyVal.str exch), ("lp", PyVal.num q)]
            initState).msgs
            = [(PyVal.str tok, PyVal.str exch, buildPriceDict (now * 1000)
                [("tk", PyVal.str tok), ("e", PyVal.str exch), ("lp", PyVal.num q)])])
      ∧ TokenDb.get_br_symbol "2885" "NSE" = "2885" := by
  refine ⟨?_, ?_, by decide⟩
  · intro now dbOk loopOk topic data st sv ev hres htr
    have htr' : (!pyTruthy sv || !pyTruthy ev) = true := by
      rcases htr with h | h <;> simp [h]
    unfold handle_market_data handleBody
    simp [hres, htr']
  · intro tok exch q htok _hdig hexch hq dbOk now
    have hres : resolveSymEx Option.none
        [("tk", PyVal.str tok), ("e", PyVal.str exch), ("lp", PyVal.num q)]
        = .ok (PyVal.str tok, PyVal.str exch) := by
      unfold resolveSymEx topicParse
      simp [pyTruthy, dget, lookup_cons_eqn, lookup_nil_eqn, beq_iff_eq, pyOr,
        htok, pyIsDigit]
    have hltp : (buildPriceDict (now * 1000)
        [("tk", PyVal.str tok), ("e", PyVal.str exch), ("lp", PyVal.num q)]).ltp
        = PyVal.num q := by
      unfold buildPriceDict
      simp [dget, lookup_cons_eqn, lookup_nil_eqn, beq_iff_eq, pyOr, pyTruthy,
        ne_of_gt hq]
    unfold handle_market_data handleBody
    simp [hres, pyTruthy, htok, hexch, hltp, ltpCheck_pos q hq]

/-- C5 (witness): an event with no extractable symbol is dropped with a
warning; a `tk = "2885"` event with exchange `"NSE"` is accepted under
the numeric token. -/
theorem c5_numeric_token_behavior_witness :
    ((handle_market_data 0 true true Option.none [("x", PyVal.num 1)]
          initState).msgs = []
        ∧ (handle_market_data 0 true true Option.none [("x", PyVal.num 1)]
            initState).state.writes = initState.writes
        ∧ (handle_market_data 0 true true Option.none [("x", PyVal.num 1)]
            initState).state.warnLogs = initState.warnLogs + 1)
      ∧ (handle_market_data 5 true true Option.none
          [("tk", PyVal.str "2885"), ("e", PyVal.str "NSE"), ("lp", PyVal.num 100)]
          initState).msgs
          = [(PyVal.str "2885", PyVal.str "NSE", buildPriceDict (5 * 1000)
              [("tk", PyVal.str "2885"), ("e", PyVal.str "NSE"),
                ("lp", PyVal.num 100)])] :=
  ⟨c5_numeric_token_behavior.1 0 true true Option.none [("x", PyVal.num 1)]
      initState PyVal.none PyVal.none rfl (Or.inl rfl),
    c5_numeric_token_behavior.2.1 "2885" "NSE" 100 (by decide) (by decide)
      (by decide) (by decide) true 5⟩

end Streamer

end RealtimePrices
